import Mathlib

/-
Verification of the data-preparation and aggregation pipeline of the sales
dashboard application (src/app.py).

Modelling conventions:
- pandas DataFrames are modelled column-oriented: a frame is a row count
  together with a list of named columns, each column either textual
  (dtype object) or numeric.  Numeric cell values are modelled as rationals.
- The dashboard views (region filter, KPIs, ranking, support list) operate on
  the post-normalization table, whose schema is fixed; they are modelled on a
  record type with one field per semantic column.
- The spec names columns in lowercase (emp_code, region, ...); the code names
  them Emp_Code, Region, ... .  The lowercase spec names are uniform aliases
  for the code names and the Lean model uses the code names throughout.
- pandas Series.str.replace with a literal pattern replaces every occurrence;
  astype(float) applies the Python float parser to each entry and raises on
  failure, modelled by Option.  The float parser is modelled on rationals in
  its decimal fragment (sign, digits, optional fraction, surrounding
  whitespace); exponent forms never arise in the data handled here.
-/

/-- A pandas column: either stored as text (dtype object) or numeric. -/
inductive Col where
  | strCol (vals : List String) : Col
  | numCol (vals : List ℚ) : Col
deriving DecidableEq

/-- Number of entries of a column. -/
def Col.length : Col → ℕ
  | Col.strCol vs => vs.length
  | Col.numCol vs => vs.length

/-- A pandas DataFrame: a row count and named columns. -/
structure DataFrame where
  nrows : ℕ
  cols : List (String × Col)
deriving DecidableEq

/-- The empty frame returned by pd.DataFrame(). -/
def emptyDF : DataFrame := ⟨0, []⟩

/-- df.empty in pandas: an axis has length zero. -/
def DataFrame.isEmpty (d : DataFrame) : Bool :=
  decide (d.nrows = 0) || d.cols.isEmpty

/-- The column rename dictionary of load_data (src/app.py lines 26-32),
applied to a single column name; names outside the dictionary pass through. -/
def renameMap (s : String) : String :=
  if s = "Emp Code" then ("Emp_Code")
  else if s = "Sales Executive" then ("Sales_Executive")
  else if s = "Total Sales" then ("Total_Sales")
  else if s = "Target Hit %" then ("Target_Hit_Pct")
  else if s = "Away From Target %" then ("Away_From_Target_Pct")
  else s

/-- df.rename(columns=...): renames every column header, data untouched. -/
def renameCols (d : DataFrame) : DataFrame :=
  ⟨d.nrows, d.cols.map (fun p => (renameMap p.1, p.2))⟩

/-- Series.str.replace applied per entry: removes every percent sign. -/
def removeAllPct (s : String) : String :=
  (s.toList.filter (fun c => c ≠ '%')).asString

/-- Digits to a natural number, most significant first. -/
def natOfDigits (cs : List Char) : ℕ :=
  cs.foldl (fun n c => 10 * n + (c.toNat - ('0').toNat)) 0

/-- Unsigned decimal numeral: digits, optionally a dot and more digits;
at least one digit overall. -/
def parseUnsigned (cs : List Char) : Option ℚ :=
  let intPart := cs.takeWhile (fun c => c.isDigit)
  let rest := cs.dropWhile (fun c => c.isDigit)
  match rest with
  | [] => if intPart.isEmpty then none else some (natOfDigits intPart : ℚ)
  | '.' :: frac =>
    if intPart.isEmpty ∧ frac.isEmpty then none
    else if frac.all (fun c => c.isDigit) then
      some ((natOfDigits intPart : ℚ) + (natOfDigits frac : ℚ) / (10 : ℚ) ^ frac.length)
    else none
  | _ => none

/-- The Python float constructor used by astype(float), in its decimal
fragment: surrounding whitespace ignored, optional sign, decimal numeral. -/
def parseFloat (s : String) : Option ℚ :=
  let cs := ((s.toList.dropWhile (fun c => c.isWhitespace)).reverse.dropWhile
    (fun c => c.isWhitespace)).reverse
  match cs with
  | '-' :: rest => (parseUnsigned rest).map (fun q => -q)
  | '+' :: rest => parseUnsigned rest
  | _ => parseUnsigned cs

/-- Series.str.replace applied to the whole column. -/
def strReplaceAllPct (vs : List String) : List String := vs.map removeAllPct

/-- Series.astype(float): parse every entry, raising (none) on failure. -/
def astypeFloat (vs : List String) : Option (List ℚ) := vs.mapM parseFloat

/-- Broadcast division by 100. -/
def divBy100 (vs : List ℚ) : List ℚ := vs.map (fun q => q / 100)

/-- One named column entry under the percentage-conversion pass of load_data
(src/app.py lines 35-38): a text column whose name matches the target is
replaced by str.replace then astype(float) then division by 100; a numeric
column or a non-matching name is left untouched.  Headers produced by
read_csv are pairwise distinct, so the per-entry form coincides with the
column-lookup form of the source. -/
def convertColEntry (target : String) (p : String × Col) : Option (String × Col) :=
  if p.1 = target then
    match p.2 with
    | Col.strCol vs =>
      (astypeFloat (strReplaceAllPct vs)).map (fun qs => (p.1, Col.numCol (divBy100 qs)))
    | Col.numCol _ => some p
  else some p

/-- The percentage-conversion pass for one target column name. -/
def convertOne (d : DataFrame) (target : String) : Option DataFrame :=
  (d.cols.mapM (convertColEntry target)).map (fun cs => ⟨d.nrows, cs⟩)

/-- The loop over the two percentage columns (src/app.py line 35). -/
def convertPcts (d : DataFrame) : Option DataFrame :=
  (convertOne d ("Target_Hit_Pct")).bind (fun d1 => convertOne d1 ("Away_From_Target_Pct"))

/-- Outcome of load_data: an uncaught exception, or a returned frame after
displaying the given error messages. -/
inductive LoadOutcome where
  | exc : LoadOutcome
  | ret (msgs : List String) (df : DataFrame) : LoadOutcome
deriving DecidableEq

/-- The user-facing message shown by st.error when the csv is missing
(quotation marks of the original text omitted). -/
def fileNotFoundMsg : String :=
  "Error: sales_data.csv not found. Please ensure the data file is committed to your GitHub repository."

/-- Outcome of the pd.read_csv call: the file is missing
(FileNotFoundError), the file is present but unreadable or corrupt (any
other read exception, e.g. a permission or parse error), or a parsed
frame. -/
inductive ReadResult where
  | fileNotFound : ReadResult
  | readError : ReadResult
  | ok (df : DataFrame) : ReadResult
deriving DecidableEq

/-- load_data (src/app.py lines 16-40): attempt the read.  Only
FileNotFoundError is caught (src/app.py line 20: display the error message,
return an empty frame); any other read failure propagates as an uncaught
exception.  On a parsed frame, rename the columns and convert the
percentage columns. -/
def load_data (src : ReadResult) : LoadOutcome :=
  match src with
  | ReadResult.fileNotFound => LoadOutcome.ret [fileNotFoundMsg] emptyDF
  | ReadResult.readError => LoadOutcome.exc
  | ReadResult.ok raw =>
    match convertPcts (renameCols raw) with
    | none => LoadOutcome.exc
    | some df => LoadOutcome.ret [] df

/-- Outcome of one top-level script run: crashed on an uncaught exception,
stopped by st.stop after displaying messages, or proceeded to render the
dashboard views over the loaded frame. -/
inductive AppOutcome where
  | crashed : AppOutcome
  | stopped (msgs : List String) : AppOutcome
  | rendered (df : DataFrame) (sel : List String) (thr : ℚ) : AppOutcome
deriving DecidableEq

/-- The top-level guard (src/app.py lines 43-47): load, then stop before any
filtering, aggregation or rendering when the frame is empty. -/
def runApp (src : ReadResult) (sel : List String) (thr : ℚ) : AppOutcome :=
  match load_data src with
  | LoadOutcome.exc => AppOutcome.crashed
  | LoadOutcome.ret msgs df =>
    if df.isEmpty then AppOutcome.stopped msgs else AppOutcome.rendered df sel thr

/-- A row of the post-normalization table, one field per semantic column. -/
structure Row where
  Emp_Code : String
  Sales_Executive : String
  Region : String
  Total_Sales : ℚ
  Target : ℚ
  Target_Hit_Pct : ℚ
  Away_From_Target_Pct : ℚ
deriving DecidableEq

/-- The region filter (src/app.py lines 74-77): when the sentinel is not
selected keep the rows whose Region is in the selection, otherwise keep the
whole table. -/
def dfFiltered (df : List Row) (sel : List String) : List Row :=
  if ("All Regions") ∉ sel then df.filter (fun r => decide (r.Region ∈ sel)) else df

/-- The region predicate: a row is kept iff the sentinel is selected or its
Region is in the selection. -/
def regionPred (sel : List String) (r : Row) : Bool :=
  decide (("All Regions") ∈ sel) || decide (r.Region ∈ sel)

/-- KPI: sum of Total_Sales over the filtered table (src/app.py line 89). -/
def totalSales (df : List Row) (sel : List String) : ℚ :=
  ((dfFiltered df sel).map Row.Total_Sales).sum

/-- KPI: number of distinct Emp_Code values in the filtered table
(src/app.py line 91, Series.nunique). -/
def totalSalesmen (df : List Row) (sel : List String) : ℕ :=
  ((dfFiltered df sel).map Row.Emp_Code).dedup.length

/-- KPI: number of filtered rows with Target_Hit_Pct at least 1.0
(src/app.py line 92). -/
def targetAchievedCount (df : List Row) (sel : List String) : ℕ :=
  ((dfFiltered df sel).filter (fun r => decide ((1 : ℚ) ≤ r.Target_Hit_Pct))).length

/-- sort_values by Total_Sales descending (src/app.py line 114). -/
def salesmenRank (df : List Row) (sel : List String) : List Row :=
  (dfFiltered df sel).mergeSort (fun a b => decide (b.Total_Sales ≤ a.Total_Sales))

/-- head(5) of the descending ranking (src/app.py line 116). -/
def top_5 (df : List Row) (sel : List String) : List Row :=
  (salesmenRank df sel).take 5

/-- tail(5) of the descending ranking (src/app.py line 117). -/
def bottom_5 (df : List Row) (sel : List String) : List Row :=
  (salesmenRank df sel).drop ((salesmenRank df sel).length - 5)

/-- The support list (src/app.py line 163): rows strictly below the
threshold, sorted ascending by Target_Hit_Pct. -/
def dfSupport (df : List Row) (sel : List String) (thr : ℚ) : List Row :=
  ((dfFiltered df sel).filter (fun r => decide (r.Target_Hit_Pct < thr))).mergeSort
    (fun a b => decide (a.Target_Hit_Pct ≤ b.Target_Hit_Pct))

/-- Modelled from the spec, for comparison with the source behaviour: the
spec describes the percentage normalization as stripping one trailing
percent sign from each value (the source removes every percent sign). -/
def specStripTrailingPct (s : String) : String :=
  match s.toList.getLast? with
  | some c => if c = '%' then s.toList.dropLast.asString else s
  | none => s

/-- The percentage-conversion pass as worded by the spec: identical to
convertColEntry except that only a trailing percent sign is stripped. -/
def specConvertColEntry (target : String) (p : String × Col) : Option (String × Col) :=
  if p.1 = target then
    match p.2 with
    | Col.strCol vs =>
      ((vs.map specStripTrailingPct).mapM parseFloat).map
        (fun qs => (p.1, Col.numCol (divBy100 qs)))
    | Col.numCol _ => some p
  else some p

/-- Row-level preservation between an input column and its normalized form:
either untouched, or an index-preserving map of a text column. -/
def rowsPreserved (c c2 : Col) : Prop :=
  c2 = c ∨ ∃ vs qs, c = Col.strCol vs ∧ astypeFloat (strReplaceAllPct vs) = some qs ∧
    c2 = Col.numCol (divBy100 qs)

/-- Example frame with one text percentage column and one numeric one. -/
def exFrame : DataFrame :=
  ⟨1, [("Target_Hit_Pct", Col.strCol ["50%"]), ("Away_From_Target_Pct", Col.numCol [(1 : ℚ)/4])]⟩

/-- exFrame after the percentage-conversion pass. -/
def exFrameConv : DataFrame :=
  ⟨1, [("Target_Hit_Pct", Col.numCol (divBy100 [(50 : ℚ)])),
    ("Away_From_Target_Pct", Col.numCol [(1 : ℚ)/4])]⟩

/-- Example raw frame with spaced headers, as read from the csv. -/
def exRaw : DataFrame :=
  ⟨1, [("Emp Code", Col.strCol ["E1"]), ("Target Hit %", Col.strCol ["50%"])]⟩

/-- exRaw after load_data. -/
def exLoaded : DataFrame :=
  ⟨1, [("Emp_Code", Col.strCol ["E1"]), ("Target_Hit_Pct", Col.numCol (divBy100 [(50 : ℚ)]))]⟩

/-- Example row with the given region and sales amount. -/
def mkRowR (reg : String) (q : ℚ) : Row := ⟨("E"), ("X"), reg, q, 100, q, q⟩

/-- Two example rows in distinct regions. -/
def exRowsNS : List Row := [mkRowR ("North") 1, mkRowR ("South") 2]

/-- Ten example rows with distinct sales amounts. -/
def exRows10 : List Row := (List.range 10).map (fun k => mkRowR ("North") (k : ℚ))

/-- Pointwise description of a successful monadic map over Option, stated
for the structural variant: the output has the same length and every output
entry is obtained from the input entry at the same index. -/
theorem mapMo_spec {α β : Type} {f : α → Option β} :
    ∀ {l : List α} {l2 : List β}, l.mapM' f = some l2 →
      l2.length = l.length ∧ ∀ (i : ℕ) (a : α), l[i]? = some a →
        ∃ b, l2[i]? = some b ∧ f a = some b := by
  intro l
  induction l with
  | nil =>
    intro l2 h
    rw [List.mapM'_nil] at h
    simp only [Option.pure_def, Option.some.injEq] at h
    subst h
    exact ⟨rfl, by intro i a ha; simp at ha⟩
  | cons a l ih =>
    intro l2 h
    rw [List.mapM'_cons] at h
    cases hfa : f a with
    | none => rw [hfa] at h; simp at h
    | some b =>
      rw [hfa] at h
      cases hml : l.mapM' f with
      | none => rw [hml] at h; simp at h
      | some bs =>
        rw [hml] at h
        simp only [Option.pure_def, Option.bind_eq_bind, Option.some_bind,
          Option.some.injEq] at h
        obtain ⟨hlen, hidx⟩ := ih hml
        refine ⟨by simp [← h, hlen], ?_⟩
        intro i x hx
        cases i with
        | zero =>
          simp at hx
          subst hx
          exact ⟨b, by simp [← h], hfa⟩
        | succ j =>
          simp at hx
          obtain ⟨y, hy, hfy⟩ := hidx j x hx
          exact ⟨y, by simp [← h, hy], hfy⟩

/-- The pointwise description, for mapM itself. -/
theorem mapM_opt_spec {α β : Type} {f : α → Option β} {l : List α} {l2 : List β}
    (h : l.mapM f = some l2) :
    l2.length = l.length ∧ ∀ (i : ℕ) (a : α), l[i]? = some a →
      ∃ b, l2[i]? = some b ∧ f a = some b :=
  mapMo_spec (by rw [List.mapM'_eq_mapM]; exact h)

/-- convertColEntry preserves the column name. -/
theorem convertColEntry_fst {t : String} {p q : String × Col}
    (h : convertColEntry t p = some q) : q.1 = p.1 := by
  obtain ⟨n, c⟩ := p
  cases c with
  | strCol vs =>
    unfold convertColEntry at h
    dsimp only at h
    by_cases ht : n = t
    · rw [if_pos ht] at h
      cases hA : astypeFloat (strReplaceAllPct vs) with
      | none => rw [hA] at h; simp at h
      | some qs =>
        rw [hA] at h
        simp only [Option.map_some', Option.some.injEq] at h
        rw [← h]
    · rw [if_neg ht] at h
      simp only [Option.some.injEq] at h
      rw [← h]
  | numCol vs =>
    unfold convertColEntry at h
    dsimp only at h
    by_cases ht : n = t
    · rw [if_pos ht] at h
      simp only [Option.some.injEq] at h
      rw [← h]
    · rw [if_neg ht] at h
      simp only [Option.some.injEq] at h
      rw [← h]

/-- Case analysis of one conversion step: either the entry is untouched, or
it is a matching text column replaced by its parsed and scaled values. -/
theorem convertColEntry_cases {t : String} {p q : String × Col}
    (h : convertColEntry t p = some q) :
    q = p ∨ (p.1 = t ∧ ∃ vs qs, p.2 = Col.strCol vs ∧
      astypeFloat (strReplaceAllPct vs) = some qs ∧
      q = (p.1, Col.numCol (divBy100 qs))) := by
  obtain ⟨n, c⟩ := p
  cases c with
  | strCol vs =>
    unfold convertColEntry at h
    dsimp only at h
    by_cases ht : n = t
    · rw [if_pos ht] at h
      cases hA : astypeFloat (strReplaceAllPct vs) with
      | none => rw [hA] at h; simp at h
      | some qs =>
        rw [hA] at h
        simp only [Option.map_some', Option.some.injEq] at h
        exact Or.inr ⟨ht, vs, qs, rfl, hA, h.symm⟩
    · rw [if_neg ht] at h
      simp only [Option.some.injEq] at h
      exact Or.inl h.symm
  | numCol vs =>
    unfold convertColEntry at h
    dsimp only at h
    by_cases ht : n = t
    · rw [if_pos ht] at h
      simp only [Option.some.injEq] at h
      exact Or.inl h.symm
    · rw [if_neg ht] at h
      simp only [Option.some.injEq] at h
      exact Or.inl h.symm

/-- A numeric column is left exactly unchanged by a conversion step. -/
theorem convertColEntry_num {t : String} {p : String × Col} {vs : List ℚ}
    (h : p.2 = Col.numCol vs) : convertColEntry t p = some p := by
  unfold convertColEntry
  by_cases ht : p.1 = t
  · rw [if_pos ht, h]
  · rw [if_neg ht]

/-- An entry whose name differs from the target is left unchanged. -/
theorem convertColEntry_nomatch {t : String} {p : String × Col}
    (h : p.1 ≠ t) : convertColEntry t p = some p := by
  unfold convertColEntry
  rw [if_neg h]

/-- A matching text column is replaced by its parsed and scaled values. -/
theorem convertColEntry_strMatch {n : String} {vs : List String} {qs : List ℚ}
    (hA : astypeFloat (strReplaceAllPct vs) = some qs) :
    convertColEntry n (n, Col.strCol vs) = some (n, Col.numCol (divBy100 qs)) := by
  unfold convertColEntry
  rw [if_pos rfl]
  simp [hA]

/-- Pointwise description of one percentage-conversion pass. -/
theorem convertOne_spec {d d2 : DataFrame} {t : String} (h : convertOne d t = some d2) :
    d2.nrows = d.nrows ∧ d2.cols.length = d.cols.length ∧
      ∀ (i : ℕ) (p : String × Col), d.cols[i]? = some p →
        ∃ q, d2.cols[i]? = some q ∧ convertColEntry t p = some q := by
  unfold convertOne at h
  cases hm : d.cols.mapM (convertColEntry t) with
  | none => rw [hm] at h; simp at h
  | some cs =>
    rw [hm] at h
    simp at h
    obtain ⟨hlen, hidx⟩ := mapM_opt_spec hm
    refine ⟨by rw [← h], by rw [← h]; exact hlen, ?_⟩
    intro i p hp
    obtain ⟨q, hq, hcq⟩ := hidx i p hp
    exact ⟨q, by rw [← h]; exact hq, hcq⟩

/-- Pointwise description of the full percentage-conversion loop: every
output column comes from the input column at the same index through the two
conversion steps. -/
theorem convertPcts_spec {d d2 : DataFrame} (h : convertPcts d = some d2) :
    d2.nrows = d.nrows ∧ d2.cols.length = d.cols.length ∧
      ∀ (i : ℕ) (p : String × Col), d.cols[i]? = some p →
        ∃ mid q, d2.cols[i]? = some q ∧
          convertColEntry ("Target_Hit_Pct") p = some mid ∧
          convertColEntry ("Away_From_Target_Pct") mid = some q := by
  unfold convertPcts at h
  cases h1 : convertOne d ("Target_Hit_Pct") with
  | none => rw [h1] at h; simp at h
  | some dm =>
    rw [h1] at h
    simp at h
    obtain ⟨hn1, hl1, hi1⟩ := convertOne_spec h1
    obtain ⟨hn2, hl2, hi2⟩ := convertOne_spec h
    refine ⟨by rw [hn2, hn1], by rw [hl2, hl1], ?_⟩
    intro i p hp
    obtain ⟨mid, hmid, hcm⟩ := hi1 i p hp
    obtain ⟨q, hq, hcq⟩ := hi2 i mid hmid
    exact ⟨mid, q, hq, hcm, hcq⟩

/-- Composing the two conversion steps preserves the name and yields
row-preserving column content. -/
theorem chain_rowsPreserved {p mid q : String × Col}
    (h1 : convertColEntry ("Target_Hit_Pct") p = some mid)
    (h2 : convertColEntry ("Away_From_Target_Pct") mid = some q) :
    q.1 = p.1 ∧ rowsPreserved p.2 q.2 := by
  rcases convertColEntry_cases h1 with hmp | ⟨ht, vs, qs, hstr, hA, hmid⟩
  · subst hmp
    rcases convertColEntry_cases h2 with hqp | ⟨ht2, vs2, qs2, hstr2, hA2, hq⟩
    · subst hqp
      exact ⟨rfl, Or.inl rfl⟩
    · refine ⟨by rw [hq], Or.inr ⟨vs2, qs2, hstr2, hA2, by rw [hq]⟩⟩
  · have hnum : convertColEntry ("Away_From_Target_Pct") mid = some mid :=
      @convertColEntry_num ("Away_From_Target_Pct") mid (divBy100 qs) (by rw [hmid])
    rw [hnum] at h2
    have hqm : q = mid := by
      injection h2 with h2
      exact h2.symm
    subst hqm
    exact ⟨by rw [hmid], Or.inr ⟨vs, qs, hstr, hA, by rw [hmid]⟩⟩

/-- Row-preserving column content preserves the column length. -/
theorem rowsPreserved_length {c c2 : Col} (h : rowsPreserved c c2) :
    c2.length = c.length := by
  rcases h with h | ⟨vs, qs, hc, hA, hc2⟩
  · rw [h]
  · unfold astypeFloat at hA
    have hlen := (mapM_opt_spec hA).1
    rw [hc, hc2]
    simp [Col.length, divBy100, strReplaceAllPct] at hlen ⊢
    exact hlen

/-- The region filter equals filtering by the region predicate. -/
theorem dfFiltered_eq_filter (df : List Row) (sel : List String) :
    dfFiltered df sel = df.filter (fun r => regionPred sel r) := by
  unfold dfFiltered
  by_cases hm : ("All Regions") ∈ sel
  · rw [if_neg (by simpa using hm)]
    symm
    rw [List.filter_eq_self]
    intro r hr
    simp [regionPred, hm]
  · rw [if_pos hm]
    apply List.filter_congr
    intro r hr
    simp [regionPred, hm]

/-- A name that is none of the five dictionary keys passes through. -/
theorem renameMap_not_key (s : String) (h1 : s ≠ "Emp Code") (h2 : s ≠ "Sales Executive")
    (h3 : s ≠ "Total Sales") (h4 : s ≠ "Target Hit %") (h5 : s ≠ "Away From Target %") :
    renameMap s = s := by
  unfold renameMap
  rw [if_neg h1, if_neg h2, if_neg h3, if_neg h4, if_neg h5]

/-- The rename dictionary is idempotent on a single name. -/
theorem renameMap_idem (s : String) : renameMap (renameMap s) = renameMap s := by
  by_cases h1 : s = "Emp Code"
  · subst h1
    decide
  · by_cases h2 : s = "Sales Executive"
    · subst h2
      decide
    · by_cases h3 : s = "Total Sales"
      · subst h3
        decide
      · by_cases h4 : s = "Target Hit %"
        · subst h4
          decide
        · by_cases h5 : s = "Away From Target %"
          · subst h5
            decide
          · simp only [renameMap_not_key s h1 h2 h3 h4 h5]

/-- Claim C7: the column renaming maps exactly the five spaced headers to
their underscore-joined counterparts, every other column name passes through
unchanged, and renaming a frame applies this map to each header. -/
theorem C7_rename_mapping :
    (renameMap ("Emp Code") = "Emp_Code" ∧ renameMap ("Sales Executive") = "Sales_Executive" ∧
      renameMap ("Total Sales") = "Total_Sales" ∧
      renameMap ("Target Hit %") = "Target_Hit_Pct" ∧
      renameMap ("Away From Target %") = "Away_From_Target_Pct") ∧
    (∀ s : String, s ∉ [("Emp Code"), ("Sales Executive"), ("Total Sales"), ("Target Hit %"),
      ("Away From Target %")] → renameMap s = s) ∧
    ∀ d : DataFrame, renameCols d = ⟨d.nrows, d.cols.map (fun p => (renameMap p.1, p.2))⟩ := by
  refine ⟨⟨by decide, by decide, by decide, by decide, by decide⟩, ?_, fun d => rfl⟩
  intro s hs
  simp only [List.mem_cons, List.not_mem_nil, or_false, not_or] at hs
  obtain ⟨h1, h2, h3, h4, h5⟩ := hs
  exact renameMap_not_key s h1 h2 h3 h4 h5

/-- Witness for C7: the Region header is not in the dictionary and passes
through unchanged. -/
theorem C7_rename_mapping_witness : renameMap ("Region") = "Region" :=
  C7_rename_mapping.2.1 ("Region") (by decide)

/-- Claim C9: applying the column rename twice yields the same schema as
applying it once. -/
theorem C9_rename_idempotent (d : DataFrame) :
    renameCols (renameCols d) = renameCols d := by
  unfold renameCols
  simp only [List.map_map]
  congr 1
  apply List.map_congr_left
  intro p hp
  simp only [Function.comp]
  rw [renameMap_idem]

/-- Counterexample to claim C2 as stated: the claim covers sources that are
missing or unreadable, but only FileNotFoundError is caught (src/app.py
line 20).  On a source that is present but unreadable the run aborts with an
uncaught exception and never displays the user-facing error message. -/
theorem C2_message_counterexample :
    runApp ReadResult.readError [] 0 = AppOutcome.crashed ∧
    runApp ReadResult.readError [] 0 ≠ AppOutcome.stopped [fileNotFoundMsg] :=
  ⟨rfl, fun h => AppOutcome.noConfusion h⟩

/-- Claim C2 (amended): when the source file is missing, the run displays
the user-facing error message and stops; when the source file is present
but unreadable, the run aborts with an uncaught exception and no message.
In both cases no run with a failed read ever reaches the rendering stage. -/
theorem C2_read_failure_halts (sel : List String) (thr : ℚ) :
    runApp ReadResult.fileNotFound sel thr = AppOutcome.stopped [fileNotFoundMsg] ∧
    runApp ReadResult.readError sel thr = AppOutcome.crashed ∧
    (∀ (df : DataFrame) (sel2 : List String) (thr2 : ℚ),
      runApp ReadResult.fileNotFound sel thr ≠ AppOutcome.rendered df sel2 thr2) ∧
    (∀ (df : DataFrame) (sel2 : List String) (thr2 : ℚ),
      runApp ReadResult.readError sel thr ≠ AppOutcome.rendered df sel2 thr2) :=
  ⟨rfl, rfl, fun _ _ _ h => AppOutcome.noConfusion h, fun _ _ _ h => AppOutcome.noConfusion h⟩

/-- Claim C3: when the sentinel is not selected, every filtered row has its
Region in the selection; when the sentinel is selected, the filtered table
is the source table, unchanged in count and order. -/
theorem C3_region_filter_subset (df : List Row) (sel : List String) :
    (("All Regions") ∉ sel → ∀ r ∈ dfFiltered df sel, r.Region ∈ sel) ∧
    (("All Regions") ∈ sel → dfFiltered df sel = df) := by
  constructor
  · intro hAll r hr
    unfold dfFiltered at hr
    rw [if_pos hAll] at hr
    have hm := List.mem_filter.mp hr
    simpa using hm.2
  · intro hAll
    unfold dfFiltered
    rw [if_neg (by simpa using hAll)]

/-- Witness for C3 at a concrete table and concrete selections. -/
theorem C3_region_filter_witness :
    (∀ r ∈ dfFiltered exRowsNS [("North")], r.Region ∈ [("North")]) ∧
    dfFiltered exRowsNS [("All Regions")] = exRowsNS :=
  ⟨(C3_region_filter_subset exRowsNS [("North")]).1 (by decide),
   (C3_region_filter_subset exRowsNS [("All Regions")]).2 (by decide)⟩

/-- Claim C5: the KPI aggregates over the filtered view equal the sum of
Total_Sales, the number of distinct Emp_Code values, and the count of rows
with Target_Hit_Pct at least 1, each taken over exactly the rows satisfying
the region predicate. -/
theorem C5_kpi_correctness (df : List Row) (sel : List String) :
    totalSales df sel = ((df.filter (fun r => regionPred sel r)).map Row.Total_Sales).sum ∧
    totalSalesmen df sel =
      ((df.filter (fun r => regionPred sel r)).map Row.Emp_Code).dedup.length ∧
    targetAchievedCount df sel =
      (df.filter (fun r => regionPred sel r)).countP
        (fun r => decide ((1 : ℚ) ≤ r.Target_Hit_Pct)) := by
  refine ⟨?_, ?_, ?_⟩
  · unfold totalSales
    rw [dfFiltered_eq_filter]
  · unfold totalSalesmen
    rw [dfFiltered_eq_filter]
  · unfold targetAchievedCount
    rw [dfFiltered_eq_filter, List.countP_eq_length_filter]

/-- Claim C10: with an empty selection the filtered table is empty and all
downstream aggregates are computed over an empty table. -/
theorem C10_empty_selection (df : List Row) (thr : ℚ) :
    dfFiltered df [] = [] ∧ totalSales df [] = 0 ∧ totalSalesmen df [] = 0 ∧
    targetAchievedCount df [] = 0 ∧ top_5 df [] = [] ∧ bottom_5 df [] = [] ∧
    dfSupport df [] thr = [] := by
  have hf : dfFiltered df [] = [] := by
    unfold dfFiltered
    rw [if_pos (by simp)]
    simp
  refine ⟨hf, ?_, ?_, ?_, ?_, ?_, ?_⟩
  · unfold totalSales
    rw [hf]
    simp
  · unfold totalSalesmen
    rw [hf]
    simp
  · unfold targetAchievedCount
    rw [hf]
    simp
  · unfold top_5 salesmenRank
    rw [hf]
    simp
  · unfold bottom_5 salesmenRank
    rw [hf]
    simp
  · unfold dfSupport
    rw [hf]
    simp

/-- Claim C4: a row is in the support list iff it is a filtered row whose
Target_Hit_Pct is strictly below the threshold, and the support list is
sorted ascending by Target_Hit_Pct. -/
theorem C4_support_list_membership_sorted (df : List Row) (sel : List String) (thr : ℚ) :
    (∀ r : Row, r ∈ dfSupport df sel thr ↔
      r ∈ dfFiltered df sel ∧ r.Target_Hit_Pct < thr) ∧
    (dfSupport df sel thr).Sorted (fun a b => a.Target_Hit_Pct ≤ b.Target_Hit_Pct) := by
  constructor
  · intro r
    unfold dfSupport
    rw [(List.mergeSort_perm _ _).mem_iff, List.mem_filter]
    simp
  · unfold dfSupport
    have hs := @List.sorted_mergeSort Row
      (fun a b => decide (a.Target_Hit_Pct ≤ b.Target_Hit_Pct))
      (fun a b c hab hbc => by
        simp only [decide_eq_true_eq] at hab hbc ⊢
        exact le_trans hab hbc)
      (fun a b => by
        simp only [Bool.or_eq_true, decide_eq_true_eq]
        exact le_total _ _)
      ((dfFiltered df sel).filter (fun r => decide (r.Target_Hit_Pct < thr)))
    exact List.Pairwise.imp (fun h => by simpa using h) hs

/-- The ranking has the same length as the filtered table. -/
theorem salesmenRank_length (df : List Row) (sel : List String) :
    (salesmenRank df sel).length = (dfFiltered df sel).length := by
  unfold salesmenRank
  exact List.length_mergeSort _

/-- The ranking is sorted descending by Total_Sales. -/
theorem salesmenRank_sorted (df : List Row) (sel : List String) :
    List.Pairwise (fun a b : Row => decide (b.Total_Sales ≤ a.Total_Sales) = true)
      (salesmenRank df sel) := by
  unfold salesmenRank
  exact @List.sorted_mergeSort Row
    (fun a b => decide (b.Total_Sales ≤ a.Total_Sales))
    (fun a b c hab hbc => by
      simp only [decide_eq_true_eq] at hab hbc ⊢
      exact le_trans hbc hab)
    (fun a b => by
      simp only [Bool.or_eq_true, decide_eq_true_eq]
      exact le_total b.Total_Sales a.Total_Sales)
    (dfFiltered df sel)

/-- Claim C6: with at least 10 filtered rows, the descending ranking
decomposes into the 5-row head, a middle part, and the 5-row tail, so the
top-5 and bottom-5 selections are disjoint row occurrences, and they are the
two extremes of the Total_Sales ordering. -/
theorem C6_top_bottom_extremes (df : List Row) (sel : List String)
    (h : 10 ≤ (dfFiltered df sel).length) :
    salesmenRank df sel =
      top_5 df sel ++ ((salesmenRank df sel).drop 5).take ((salesmenRank df sel).length - 10)
        ++ bottom_5 df sel ∧
    (top_5 df sel).length = 5 ∧ (bottom_5 df sel).length = 5 ∧
    (∀ x ∈ top_5 df sel,
      ∀ y ∈ ((salesmenRank df sel).drop 5).take ((salesmenRank df sel).length - 10)
        ++ bottom_5 df sel, y.Total_Sales ≤ x.Total_Sales) ∧
    (∀ y ∈ bottom_5 df sel,
      ∀ x ∈ top_5 df sel ++
        ((salesmenRank df sel).drop 5).take ((salesmenRank df sel).length - 10),
        y.Total_Sales ≤ x.Total_Sales) := by
  have hlen : 10 ≤ (salesmenRank df sel).length := by
    rw [salesmenRank_length]
    exact h
  have h3 : ((salesmenRank df sel).drop 5).drop ((salesmenRank df sel).length - 10) =
      (salesmenRank df sel).drop ((salesmenRank df sel).length - 5) := by
    rw [List.drop_drop]
    congr 1
    omega
  have h2 : ((salesmenRank df sel).drop 5).take ((salesmenRank df sel).length - 10) ++
      (salesmenRank df sel).drop ((salesmenRank df sel).length - 5) =
      (salesmenRank df sel).drop 5 := by
    rw [← h3]
    exact List.take_append_drop _ _
  have hdec : salesmenRank df sel =
      top_5 df sel ++ (((salesmenRank df sel).drop 5).take ((salesmenRank df sel).length - 10)
        ++ bottom_5 df sel) := by
    unfold top_5 bottom_5
    rw [h2]
    exact (List.take_append_drop _ _).symm
  have hsorted := salesmenRank_sorted df sel
  rw [hdec, List.pairwise_append] at hsorted
  obtain ⟨hT, hMB, hcross⟩ := hsorted
  rw [List.pairwise_append] at hMB
  obtain ⟨hM, hB, hcross2⟩ := hMB
  refine ⟨?_, ?_, ?_, ?_, ?_⟩
  · conv_lhs => rw [hdec]
    exact (List.append_assoc _ _ _).symm
  · unfold top_5
    rw [List.length_take]
    omega
  · unfold bottom_5
    rw [List.length_drop]
    omega
  · intro x hx y hy
    have := hcross x hx y hy
    simpa using this
  · intro y hy x hx
    rcases List.mem_append.mp hx with hx | hx
    · have := hcross x hx y (List.mem_append.mpr (Or.inr hy))
      simpa using this
    · have := hcross2 x hx y hy
      simpa using this

/-- Witness for C6 at a concrete 10-row table. -/
theorem C6_top_bottom_witness :
    (top_5 exRows10 [("All Regions")]).length = 5 ∧
    (bottom_5 exRows10 [("All Regions")]).length = 5 := by
  have h := C6_top_bottom_extremes exRows10 [("All Regions")] (by decide)
  exact ⟨h.2.1, h.2.2.1⟩

/-- Counterexample to claim C1 as stated: the source removes every percent
sign (str.replace), not only a trailing one.  On the text value 5%0 the code
parses 50 and yields 50/100, while the spec-worded trailing-strip normalizer
fails to parse and raises. -/
theorem C1_percent_trailing_counterexample :
    convertColEntry ("Target_Hit_Pct") (("Target_Hit_Pct"), Col.strCol [("5%0")]) =
      some (("Target_Hit_Pct"), Col.numCol (divBy100 [(50 : ℚ)])) ∧
    specConvertColEntry ("Target_Hit_Pct") (("Target_Hit_Pct"), Col.strCol [("5%0")]) = none ∧
    convertColEntry ("Target_Hit_Pct") (("Target_Hit_Pct"), Col.strCol [("5%0")]) ≠
      specConvertColEntry ("Target_Hit_Pct") (("Target_Hit_Pct"), Col.strCol [("5%0")]) :=
  ⟨rfl, rfl, fun h => Option.noConfusion h⟩

/-- Claim C1 (amended): percentage normalization is type-guarded.  For each
of the two percentage columns, a numeric column passes through exactly
unchanged, and a text column has every percent sign removed from each value,
the remainder parsed as a float and the result divided by 100. -/
theorem C1_percent_normalization (d d2 : DataFrame) (h : convertPcts d = some d2)
    (i : ℕ) (n : String)
    (hn : n = "Target_Hit_Pct" ∨ n = "Away_From_Target_Pct") :
    (∀ vs, d.cols[i]? = some (n, Col.numCol vs) → d2.cols[i]? = some (n, Col.numCol vs)) ∧
    (∀ vs qs, d.cols[i]? = some (n, Col.strCol vs) →
      astypeFloat (strReplaceAllPct vs) = some qs →
      d2.cols[i]? = some (n, Col.numCol (divBy100 qs))) := by
  obtain ⟨hnr, hlen, hidx⟩ := convertPcts_spec h
  constructor
  · intro vs hp
    obtain ⟨mid, q, hq, hcm, hcq⟩ := hidx i (n, Col.numCol vs) hp
    have hstep1 : convertColEntry ("Target_Hit_Pct") (n, Col.numCol vs) =
        some (n, Col.numCol vs) := convertColEntry_num rfl
    rw [hstep1] at hcm
    injection hcm with hmid
    subst hmid
    have hstep2 : convertColEntry ("Away_From_Target_Pct") (n, Col.numCol vs) =
        some (n, Col.numCol vs) := convertColEntry_num rfl
    rw [hstep2] at hcq
    injection hcq with hqe
    rw [← hqe] at hq
    exact hq
  · intro vs qs hp hA
    obtain ⟨mid, q, hq, hcm, hcq⟩ := hidx i (n, Col.strCol vs) hp
    rcases hn with hn | hn
    · subst hn
      have hstep1 : convertColEntry ("Target_Hit_Pct") (("Target_Hit_Pct"), Col.strCol vs) =
          some (("Target_Hit_Pct"), Col.numCol (divBy100 qs)) := convertColEntry_strMatch hA
      rw [hstep1] at hcm
      injection hcm with hmid
      subst hmid
      have hstep2 : convertColEntry ("Away_From_Target_Pct")
          (("Target_Hit_Pct"), Col.numCol (divBy100 qs)) =
          some (("Target_Hit_Pct"), Col.numCol (divBy100 qs)) := convertColEntry_num rfl
      rw [hstep2] at hcq
      injection hcq with hqe
      rw [← hqe] at hq
      exact hq
    · subst hn
      have hstep1 : convertColEntry ("Target_Hit_Pct")
          (("Away_From_Target_Pct"), Col.strCol vs) =
          some (("Away_From_Target_Pct"), Col.strCol vs) :=
        convertColEntry_nomatch (show ("Away_From_Target_Pct" : String) ≠ "Target_Hit_Pct" by decide)
      rw [hstep1] at hcm
      injection hcm with hmid
      subst hmid
      have hstep2 : convertColEntry ("Away_From_Target_Pct")
          (("Away_From_Target_Pct"), Col.strCol vs) =
          some (("Away_From_Target_Pct"), Col.numCol (divBy100 qs)) :=
        convertColEntry_strMatch hA
      rw [hstep2] at hcq
      injection hcq with hqe
      rw [← hqe] at hq
      exact hq

/-- Witness for C1 at a concrete frame: the text percentage column is
converted, the numeric one is left exactly unchanged. -/
theorem C1_percent_normalization_witness :
    exFrameConv.cols[0]? = some (("Target_Hit_Pct"), Col.numCol (divBy100 [(50 : ℚ)])) ∧
    exFrameConv.cols[1]? = some (("Away_From_Target_Pct"), Col.numCol [(1 : ℚ)/4]) :=
  ⟨(C1_percent_normalization exFrame exFrameConv rfl 0 ("Target_Hit_Pct") (Or.inl rfl)).2
      [("50%")] [(50 : ℚ)] rfl rfl,
   (C1_percent_normalization exFrame exFrameConv rfl 1 ("Away_From_Target_Pct") (Or.inr rfl)).1
      [(1 : ℚ)/4] rfl⟩

/-- Claim C8: a successful load preserves the row count, and every column of
the result sits at the same position as its source column, renamed, with its
rows preserved in count and order (either untouched or mapped pointwise by
the percentage conversion). -/
theorem C8_load_preserves_rows (raw df : DataFrame) (msgs : List String)
    (h : load_data (ReadResult.ok raw) = LoadOutcome.ret msgs df) :
    df.nrows = raw.nrows ∧ df.cols.length = raw.cols.length ∧
    ∀ (i : ℕ) (n : String) (c : Col), raw.cols[i]? = some (n, c) →
      ∃ c2, df.cols[i]? = some (renameMap n, c2) ∧ rowsPreserved c c2 ∧
        Col.length c2 = Col.length c := by
  unfold load_data at h
  dsimp only at h
  cases hcv : convertPcts (renameCols raw) with
  | none =>
    rw [hcv] at h
    exact LoadOutcome.noConfusion h
  | some d2 =>
    rw [hcv] at h
    injection h with h1 h2
    subst h2
    obtain ⟨hn, hl, hidx⟩ := convertPcts_spec hcv
    refine ⟨by rw [hn]; rfl, by rw [hl]; simp [renameCols], ?_⟩
    intro i n c hic
    have hric : (renameCols raw).cols[i]? = some (renameMap n, c) := by
      unfold renameCols
      rw [List.getElem?_map, hic]
      rfl
    obtain ⟨mid, q, hq, hcm, hcq⟩ := hidx i (renameMap n, c) hric
    obtain ⟨hq1, hrp⟩ := chain_rowsPreserved hcm hcq
    refine ⟨q.2, ?_, hrp, rowsPreserved_length hrp⟩
    dsimp only at hq1
    have hqe : q = (renameMap n, q.2) := by
      rw [← hq1]
    rw [hq, hqe]

/-- Witness for C8 at a concrete raw frame with spaced headers. -/
theorem C8_load_preserves_rows_witness :
    load_data (ReadResult.ok exRaw) = LoadOutcome.ret [] exLoaded ∧
    (∃ c2, exLoaded.cols[0]? = some (renameMap ("Emp Code"), c2) ∧
      rowsPreserved (Col.strCol [("E1")]) c2 ∧
      Col.length c2 = Col.length (Col.strCol [("E1")])) :=
  ⟨rfl, (C8_load_preserves_rows exRaw exLoaded [] rfl).2.2 0 ("Emp Code")
    (Col.strCol [("E1")]) rfl⟩
